import Mathlib

/-
Verification of the PDF form-filling engine in src/steamlit.py.

The shallow embedding below follows the two core methods of the
PDFFormFiller class:

* fill_pdf_form (lines 62-81): re-parses the template bytes, walks the
  pages, fills widget annotation dictionaries from a row mapping, runs the
  per-page update statement on the variable bound by the inner loop, and
  finally touches Root.AcroForm.

* process_all_records (lines 83-125): iterates the rows with their 0-based
  indices, catches any exception at the row boundary, counts successes and
  failures, and reports both counts.

Template bytes are modelled by the parsed page tree itself: pdfrw parsing
of the same immutable byte string is deterministic, and the code re-parses
the bytes for every row, so a fill operation is a pure function of the
template value and the row.  Dictionaries are association lists; pdfrw
objects (strings, name tokens, raw objects, integers) are an inductive
type.  The pdfrw lookup of a missing key yields None, which is falsy, as
is an empty string or an empty array; this is modelled with Option and
explicit truthiness.
-/

set_option maxRecDepth 4000

namespace PdfFill

/-- Values stored in pdfrw dictionaries: PdfString or plain strings,
name tokens (pdfrw.PdfName, a string beginning with a slash), raw
objects (pdfrw.PdfObject), and integers. -/
inductive PdfVal where
  | str (s : String)
  | name (s : String)
  | obj (s : String)
  | num (n : Int)
deriving DecidableEq, Repr

/-- Underlying text of a pdfrw value; pdfrw strings and name tokens are
Python str subclasses, so slicing and comparison act on this text.  The
code only ever slices the field-name slot, which holds a delimited
string. -/
def PdfVal.text : PdfVal → String
  | .str s => s
  | .name s => s
  | .obj s => s
  | .num n => toString n

/-- Python truthiness of a pdfrw value: empty strings and zero are falsy. -/
def PdfVal.truthy : PdfVal → Bool
  | .str s => s != ""
  | .name s => s != ""
  | .obj s => s != ""
  | .num n => n != 0

/-- Python equality between a pdfrw value and a string constant such as
the Widget subtype or the field-type tokens; an integer never equals a
string. -/
def PdfVal.eqStr : PdfVal → String → Bool
  | .str t, s => t == s
  | .name t, s => t == s
  | .obj t, s => t == s
  | .num _, _ => false

/-- Embedding of pdfrw.PdfName applied to a Python string: the resulting
name token is the string prefixed with a slash. -/
def mkName (s : String) : PdfVal :=
  PdfVal.name ("/" ++ s)

/-- Comparison of an optional dictionary entry with a string constant,
as in the source expressions comparing annotation slots against the
class constants; a missing key (None) compares unequal. -/
def optEqStr (o : Option PdfVal) (s : String) : Bool :=
  match o with
  | some v => v.eqStr s
  | none => false

/-- First value bound to a key in an association list, mirroring Python
dictionary lookup. -/
def lookupEntry {α : Type} : List (String × α) → String → Option α
  | [], _ => none
  | (k₁, v) :: rest, k => if k₁ = k then some v else lookupEntry rest k

/-- Replacement or insertion of a key binding, mirroring Python
dictionary update for a single key. -/
def setEntry : List (String × PdfVal) → String → PdfVal → List (String × PdfVal)
  | [], k, v => [(k, v)]
  | (k₁, v₁) :: rest, k, v =>
    if k₁ = k then (k, v) :: rest else (k₁, v₁) :: setEntry rest k v

/-- A pdfrw dictionary node, used for annotation dictionaries and for
the AcroForm dictionary. -/
structure Annot where
  entries : List (String × PdfVal)
deriving DecidableEq, Repr

/-- Dictionary lookup, as in the subscript operator of pdfrw, which
returns None for a missing key. -/
def Annot.get (a : Annot) (k : String) : Option PdfVal :=
  lookupEntry a.entries k

/-- Dictionary update for one key, as performed by the update calls in
the source. -/
def Annot.set (a : Annot) (k : String) (v : PdfVal) : Annot :=
  ⟨setEntry a.entries k v⟩

/-- Raw cell values of a row produced by row.to_dict(): a string, the
Python None, a float NaN, or an integer. -/
inductive RawVal where
  | str (s : String)
  | null
  | nan
  | int (n : Int)
deriving DecidableEq, Repr

/-- Python str() applied to a raw cell value. -/
def pyStr : RawVal → String
  | .str s => s
  | .null => "None"
  | .nan => "nan"
  | .int n => toString n

/-- Lowering of one character, as Python str.lower acts on ASCII. -/
def lowerChar (c : Char) : Char :=
  if 65 ≤ c.toNat ∧ c.toNat ≤ 90 then Char.ofNat (c.toNat + 32) else c

/-- Python str.lower, modelled on the ASCII range. -/
def pyLower (s : String) : String :=
  ⟨s.data.map lowerChar⟩

/-- Value normalization of lines 71-73 of the source: convert the raw
value with str(), then blank it when the resulting string is the
case-insensitive token nan.  The pd.isna test on the already-converted
string is always false, so only the lowercase comparison acts. -/
def normalizeVal (raw : RawVal) : String :=
  let fv := pyStr raw
  if pyLower fv = "nan" then "" else fv

/-- One spreadsheet row, a mapping from column name to raw value. -/
abbrev Row := List (String × RawVal)

/-- Row lookup, as in the membership test and subscript of line 70-71. -/
def rowLookup (r : Row) (k : String) : Option RawVal :=
  lookupEntry r k

/-- Python slice [1:-1], used on line 69 to strip the delimiters of the
field-name string: the first and last code points are dropped. -/
def pySlice1m1 (s : String) : String :=
  ⟨(s.data.drop 1).dropLast⟩

/-- A page: its optional Annots array.  pdfrw returns None when the key
is absent; an empty array is falsy like None for the test on line 65. -/
structure Page where
  annots : Option (List Annot)
deriving DecidableEq, Repr

/-- A parsed template: the page list and the optional Root.AcroForm
dictionary. -/
structure PdfTemplate where
  pages : List Page
  acroForm : Option Annot
deriving DecidableEq, Repr

/-- Exceptions that fill_pdf_form can raise: the NameError of line 79
when the loop variable of the inner loop was never bound, and the
AttributeError of line 80 when Root.AcroForm is None, which is the
no-form failure of a formless template. -/
inductive FillError where
  | nameError
  | noFormError
deriving DecidableEq, Repr

/-- Python str() of the exception, with the quotation marks of the
interpreter messages omitted. -/
def errText : FillError → String
  | .nameError => "name annotation is not defined"
  | .noFormError => "NoneType object has no attribute update"

/-- Per-annotation body of the inner loop, lines 67-78: a widget
annotation with a truthy field name whose stripped name is a key of the
row receives the normalized value; a text field gets V and AP as plain
strings, a button field gets V and AS as name tokens; any other
annotation is returned unchanged. -/
def fillAnnot (row : Row) (a : Annot) : Annot :=
  match a.get ("/T") with
  | none => a
  | some tv =>
    if tv.truthy then
      if optEqStr (a.get ("/Subtype")) ("/Widget") then
        match rowLookup row (pySlice1m1 tv.text) with
        | some raw =>
          let fv := normalizeVal raw
          if optEqStr (a.get ("/FT")) ("/Tx") then
            Annot.set (Annot.set a ("/V") (PdfVal.str fv)) ("/AP") (PdfVal.str fv)
          else if optEqStr (a.get ("/FT")) ("/Btn") then
            Annot.set (Annot.set a ("/V") (mkName fv)) ("/AS") (mkName fv)
          else a
        | none => a
      else a
    else a

/-- List element at an index, total with Option, used to address pages
and annotations positionally. -/
def nth {α : Type} : List α → Nat → Option α
  | [], _ => none
  | a :: _, 0 => some a
  | _ :: l, n + 1 => nth l n

/-- In-place modification of one list element, used to model mutation of
an annotation object reachable from the page tree. -/
def modifyNth {α : Type} (f : α → α) : Nat → List α → List α
  | _, [] => []
  | 0, a :: l => f a :: l
  | n + 1, a :: l => a :: modifyNth f n l

/-- The per-page update statement of line 79 applied to one annotation
object: its Ff entry is set to 1. -/
def setFfAnnot (a : Annot) : Annot :=
  a.set ("/Ff") (PdfVal.num 1)

/-- Mutation of the annotation at page index pj, annotation index aj, by
the statement of line 79. -/
def applyFf (pj aj : Nat) (pages : List Page) : List Page :=
  modifyNth (fun pg => ⟨Option.map (modifyNth setFfAnnot aj) pg.annots⟩) pj pages

/-- The page loop of lines 64-79.  done holds the pages already
traversed, last the position of the annotation object currently bound to
the inner loop variable, if any.  A page with a truthy Annots array has
every annotation visited (so the loop variable ends bound to its last
annotation) and mapped through the fill body; afterwards, for every
page, the statement of line 79 updates the annotation bound to the loop
variable, raising NameError when there is none. -/
def fillLoop (row : Row) : List Page → List Page → Option (Nat × Nat) → Except FillError (List Page)
  | [], done, _ => Except.ok done
  | p :: rest, done, last =>
    match p.annots with
    | some (a₀ :: rest₀) =>
      fillLoop row rest
        (applyFf done.length ((a₀ :: rest₀).length - 1)
          (done ++ [⟨some (List.map (fillAnnot row) (a₀ :: rest₀))⟩]))
        (some (done.length, (a₀ :: rest₀).length - 1))
    | some [] =>
      match last with
      | none => Except.error FillError.nameError
      | some pa => fillLoop row rest (applyFf pa.1 pa.2 (done ++ [p])) (some pa)
    | none =>
      match last with
      | none => Except.error FillError.nameError
      | some pa => fillLoop row rest (applyFf pa.1 pa.2 (done ++ [p])) (some pa)

/-- fill_pdf_form, lines 62-81: construct a fresh document from the
immutable template bytes, run the page loop, then update Root.AcroForm
with NeedAppearances true — an AttributeError (the no-form error) when
the template has no AcroForm. -/
def fill_pdf_form (t : PdfTemplate) (row : Row) : Except FillError PdfTemplate :=
  match fillLoop row t.pages [] none with
  | Except.error e => Except.error e
  | Except.ok pages =>
    match t.acroForm with
    | none => Except.error FillError.noFormError
    | some af =>
      Except.ok ⟨pages, some (Annot.set af ("/NeedAppearances") (PdfVal.obj ("true")))⟩

/-- Outcome of one row of the batch: a named output document, or a
failure carrying the row index and the message printed on line 109. -/
inductive RowResult where
  | success (filename : String) (doc : PdfTemplate)
  | failure (index : Nat) (msg : String)
deriving DecidableEq, Repr

/-- Output filename of lines 98-99: the Account_ID value of the row when
the key is present, otherwise the 0-based row index, embedded in the
filled_form pattern. -/
def outName (i : Nat) (row : Row) : String :=
  "filled_form_" ++
    (match rowLookup row ("Account_ID") with
     | some v => pyStr v
     | none => toString i) ++ ".pdf"

/-- Body of the try block of lines 97-109 for one row: on success the
named document, on any exception a failure with the index and the error
message of line 109. -/
def processRow (t : PdfTemplate) (i : Nat) (row : Row) : RowResult :=
  match fill_pdf_form t row with
  | Except.ok doc => RowResult.success (outName i row) doc
  | Except.error e =>
    RowResult.failure i ("Error processing record " ++ toString i ++ ": " ++ errText e)

/-- The row loop of line 96, threading the 0-based index of iterrows. -/
def processRows (t : PdfTemplate) : Nat → List Row → List RowResult
  | _, [] => []
  | i, r :: rest => processRow t i r :: processRows t (i + 1) rest

/-- The two counters of lines 93-94, incremented per row on lines 105
and 108: successes first, failures second. -/
def countResults : List RowResult → Nat × Nat
  | [] => (0, 0)
  | r :: rest =>
    let c := countResults rest
    match r with
    | RowResult.success _ _ => (c.1 + 1, c.2)
    | RowResult.failure _ _ => (c.1, c.2 + 1)

/-- Result of a batch run: the per-row outcomes, the two counters, and
the final report lines of lines 123-125. -/
structure BatchReport where
  results : List RowResult
  successful_count : Nat
  failed_count : Nat
  summary : List String
deriving DecidableEq, Repr

/-- process_all_records, lines 83-125, restricted to the engine: every
row is processed in order from index 0, each failure is caught at the
row boundary, and the final report states both counts. -/
def process_all_records (t : PdfTemplate) (rows : List Row) : BatchReport :=
  ⟨processRows t 0 rows,
   (countResults (processRows t 0 rows)).1,
   (countResults (processRows t 0 rows)).2,
   ["\nProcessing complete!",
    "Successfully processed: " ++ toString (countResults (processRows t 0 rows)).1 ++ " records",
    "Failed to process: " ++ toString (countResults (processRows t 0 rows)).2 ++ " records"]⟩

/-- Annotation at page index pi, annotation index ai of a page list. -/
def getAnnot (pages : List Page) (pi ai : Nat) : Option Annot :=
  match nth pages pi with
  | some pg =>
    match pg.annots with
    | some l => nth l ai
    | none => none
  | none => none

/-- Agreement of two dictionaries on every key other than k. -/
def agreeExcept (b a : Annot) (k : String) : Prop :=
  ∀ k₁, k₁ ≠ k → b.get k₁ = a.get k₁

/-- Relation produced by the statement of line 79: the dictionary is
unchanged except that its Ff entry may have been set to 1. -/
def ffPreserved (b a : Annot) : Prop :=
  agreeExcept b a ("/Ff") ∧
    (b.get ("/Ff") = a.get ("/Ff") ∨ b.get ("/Ff") = some (PdfVal.num 1))

/-- Document component of a row outcome. -/
def docOf : RowResult → Option PdfTemplate
  | RowResult.success _ d => some d
  | RowResult.failure _ _ => none

/-- Filename component of a row outcome. -/
def nameOf : RowResult → Option String
  | RowResult.success fn _ => some fn
  | RowResult.failure _ _ => none

/-- Document produced by one fill of the template with one row, when the
fill does not raise. -/
def fillDocOpt (t : PdfTemplate) (r : Row) : Option PdfTemplate :=
  match fill_pdf_form t r with
  | Except.ok d => some d
  | Except.error _ => none

/-- Observer: the value of slot k of the annotation at position (pi, ai)
of the document produced by one fill, when the fill does not raise. -/
def fillSlot (t : PdfTemplate) (row : Row) (pi ai : Nat) (k : String) : Option PdfVal :=
  match fill_pdf_form t row with
  | Except.ok out =>
    match getAnnot out.pages pi ai with
    | some b => b.get k
    | none => none
  | Except.error _ => none

/-- Observer: the annotation at position (pi, ai) of the document
produced by one fill, when the fill does not raise. -/
def fillAnnotAt (t : PdfTemplate) (row : Row) (pi ai : Nat) : Option Annot :=
  match fill_pdf_form t row with
  | Except.ok out => getAnnot out.pages pi ai
  | Except.error _ => none

/-- Stripped field name of an annotation, as computed on line 69; empty
when the field-name slot is absent. -/
def annotKeyOf (a : Annot) : String :=
  match a.get ("/T") with
  | some tv => pySlice1m1 tv.text
  | none => ""

/-- Conditions under which the inner loop takes the text branch of line
75 for an annotation: truthy field name, Widget subtype, text field
type, and stripped name k. -/
def textWidgetKey (a : Annot) (k : String) : Prop :=
  ∃ tv, a.get ("/T") = some tv ∧ tv.truthy = true ∧
    optEqStr (a.get ("/Subtype")) ("/Widget") = true ∧
    optEqStr (a.get ("/FT")) ("/Tx") = true ∧
    pySlice1m1 tv.text = k

/-- Conditions under which the inner loop takes the button branch of
line 77 for an annotation. -/
def btnWidgetKey (a : Annot) (k : String) : Prop :=
  ∃ tv, a.get ("/T") = some tv ∧ tv.truthy = true ∧
    optEqStr (a.get ("/Subtype")) ("/Widget") = true ∧
    optEqStr (a.get ("/FT")) ("/Btn") = true ∧
    pySlice1m1 tv.text = k

/-- Test fixture: a text widget annotation named A. -/
def aPlain : Annot :=
  ⟨[("/T", PdfVal.str ("(A)")), ("/Subtype", PdfVal.name ("/Widget")),
    ("/FT", PdfVal.name ("/Tx"))]⟩

/-- Test fixture: a text widget annotation named zipcode. -/
def aZip : Annot :=
  ⟨[("/T", PdfVal.str ("(zipcode)")), ("/Subtype", PdfVal.name ("/Widget")),
    ("/FT", PdfVal.name ("/Tx"))]⟩

/-- Test fixture: a text widget annotation named Name with an existing
appearance and an existing value. -/
def aNameAP : Annot :=
  ⟨[("/T", PdfVal.str ("(Name)")), ("/Subtype", PdfVal.name ("/Widget")),
    ("/FT", PdfVal.name ("/Tx")), ("/AP", PdfVal.str ("OLDAP")),
    ("/V", PdfVal.str ("OLDV"))]⟩

/-- Test fixture: a button widget annotation named Opt. -/
def aBtn : Annot :=
  ⟨[("/T", PdfVal.str ("(Opt)")), ("/Subtype", PdfVal.name ("/Widget")),
    ("/FT", PdfVal.name ("/Btn"))]⟩

/-- Test fixture: an empty dictionary, used as a bare AcroForm. -/
def emptyDict : Annot := ⟨[]⟩

/-- Test fixture: a one-page template with the A widget and an AcroForm. -/
def tOk : PdfTemplate := ⟨[⟨some [aPlain]⟩], some emptyDict⟩

/-- Test fixture: a one-page template with the zipcode widget. -/
def tZip : PdfTemplate := ⟨[⟨some [aZip]⟩], some emptyDict⟩

/-- Test fixture: a one-page template with the Name widget. -/
def tName : PdfTemplate := ⟨[⟨some [aNameAP]⟩], some emptyDict⟩

/-- Test fixture: a one-page template with the Opt button widget. -/
def tBtn : PdfTemplate := ⟨[⟨some [aBtn]⟩], some emptyDict⟩

/-- Test fixture: a template with a widget page but no AcroForm. -/
def tNoForm : PdfTemplate := ⟨[⟨some [aPlain]⟩], none⟩

/-- Test fixture: a template whose only page has no Annots key. -/
def tPgNone : PdfTemplate := ⟨[⟨none⟩], some emptyDict⟩

/-- Test fixture: a template whose only page has an empty Annots array. -/
def tPgEmpty : PdfTemplate := ⟨[⟨some []⟩], some emptyDict⟩

/-- Test fixture: a row giving Name a padded string value. -/
def rowBob : Row := [("Name", RawVal.str ("  Bob  "))]

/-- Test fixture: a row giving Name a short value. -/
def rowX : Row := [("Name", RawVal.str ("x"))]

/-- Test fixture: a row giving zipcode the value 123. -/
def rowZip : Row := [("zipcode", RawVal.str ("123"))]

/-- Test fixture: a row giving Opt the value Yes. -/
def rowBtn : Row := [("Opt", RawVal.str ("Yes"))]

/-- Test fixture: a row whose Account_ID is present but empty. -/
def rowAcct : Row := [("Account_ID", RawVal.str (""))]

/-- Indexing past a cons steps the index. -/
theorem nth_cons_succ {α : Type} (a : α) (l : List α) (n : Nat) :
    nth (a :: l) (n + 1) = nth l n := rfl

/-- Indexing within the left part of an append ignores the right part. -/
theorem nth_append_left {α : Type} :
    ∀ (l₁ l₂ : List α) (n : Nat), n < l₁.length → nth (l₁ ++ l₂) n = nth l₁ n := by
  intro l₁
  induction l₁ with
  | nil => intro l₂ n h; simp at h
  | cons a l ih =>
    intro l₂ n h
    cases n with
    | zero => rfl
    | succ n => exact ih l₂ n (by simpa using h)

/-- Indexing an appended singleton at the old length finds it. -/
theorem nth_append_length {α : Type} :
    ∀ (l₁ : List α) (x : α), nth (l₁ ++ [x]) l₁.length = some x := by
  intro l₁
  induction l₁ with
  | nil => intro x; rfl
  | cons a l ih => intro x; exact ih x

/-- A successful index is within bounds. -/
theorem nth_some_lt {α : Type} :
    ∀ (l : List α) (n : Nat) (a : α), nth l n = some a → n < l.length := by
  intro l
  induction l with
  | nil => intro n a h; simp [nth] at h
  | cons b l ih =>
    intro n a h
    cases n with
    | zero => simp
    | succ n => exact Nat.succ_lt_succ (ih n a h)

/-- Indexing commutes with map. -/
theorem nth_map {α β : Type} (f : α → β) :
    ∀ (l : List α) (n : Nat), nth (List.map f l) n = Option.map f (nth l n) := by
  intro l
  induction l with
  | nil => intro n; rfl
  | cons a l ih =>
    intro n
    cases n with
    | zero => rfl
    | succ n => exact ih n

/-- Indexing after modifyNth: only the modified position changes. -/
theorem nth_modifyNth {α : Type} (f : α → α) :
    ∀ (k : Nat) (l : List α) (n : Nat),
      nth (modifyNth f k l) n = if n = k then Option.map f (nth l n) else nth l n := by
  intro k
  induction k with
  | zero =>
    intro l n
    cases l with
    | nil => cases n <;> simp [modifyNth, nth]
    | cons a l => cases n <;> simp [modifyNth, nth]
  | succ k ih =>
    intro l n
    cases l with
    | nil => cases n <;> simp [modifyNth, nth]
    | cons a l =>
      cases n with
      | zero => simp [modifyNth, nth]
      | succ n => simpa [modifyNth, nth, Nat.succ_inj] using ih l n

/-- modifyNth preserves length. -/
theorem modifyNth_length {α : Type} (f : α → α) :
    ∀ (k : Nat) (l : List α), (modifyNth f k l).length = l.length := by
  intro k
  induction k with
  | zero => intro l; cases l <;> simp [modifyNth]
  | succ k ih => intro l; cases l with
    | nil => rfl
    | cons a l => simpa [modifyNth] using ih l

/-- Setting a key makes it readable. -/
theorem lookup_setEntry_self :
    ∀ (es : List (String × PdfVal)) (k : String) (v : PdfVal),
      lookupEntry (setEntry es k v) k = some v := by
  intro es
  induction es with
  | nil => intro k v; simp [setEntry, lookupEntry]
  | cons e rest ih =>
    intro k v
    by_cases h : e.1 = k
    · simp [setEntry, lookupEntry, h]
    · simp [setEntry, lookupEntry, h, ih]

/-- Setting a key does not change the other keys. -/
theorem lookup_setEntry_ne :
    ∀ (es : List (String × PdfVal)) (k : String) (v : PdfVal) (k₁ : String),
      k₁ ≠ k → lookupEntry (setEntry es k v) k₁ = lookupEntry es k₁ := by
  intro es
  induction es with
  | nil =>
    intro k v k₁ h
    simp [setEntry, lookupEntry, Ne.symm h]
  | cons e rest ih =>
    obtain ⟨k₀, v₀⟩ := e
    intro k v k₁ h
    by_cases he : k₀ = k
    · subst he
      simp [setEntry, lookupEntry, Ne.symm h]
    · simp [setEntry, lookupEntry, he, ih k v k₁ h]

/-- Dictionary version of lookup_setEntry_self. -/
theorem Annot.get_set_self (a : Annot) (k : String) (v : PdfVal) :
    (a.set k v).get k = some v :=
  lookup_setEntry_self a.entries k v

/-- Dictionary version of lookup_setEntry_ne. -/
theorem Annot.get_set_ne (a : Annot) (k : String) (v : PdfVal) (k₁ : String)
    (h : k₁ ≠ k) : (a.set k v).get k₁ = a.get k₁ :=
  lookup_setEntry_ne a.entries k v k₁ h

/-- ffPreserved is reflexive. -/
theorem ffPreserved_refl (a : Annot) : ffPreserved a a :=
  ⟨fun _ _ => rfl, Or.inl rfl⟩

/-- ffPreserved is transitive. -/
theorem ffPreserved_trans {c b a : Annot} (h₁ : ffPreserved c b)
    (h₂ : ffPreserved b a) : ffPreserved c a := by
  refine ⟨fun k hk => (h₁.1 k hk).trans (h₂.1 k hk), ?_⟩
  rcases h₁.2 with h | h
  · rcases h₂.2 with h' | h'
    · exact Or.inl (h.trans h')
    · exact Or.inr (h.trans h')
  · exact Or.inr h

/-- The statement of line 79 only sets the Ff entry to 1. -/
theorem ffPreserved_setFf (a : Annot) : ffPreserved (setFfAnnot a) a := by
  refine ⟨fun k hk => Annot.get_set_ne a _ _ k hk, Or.inr ?_⟩
  exact Annot.get_set_self a _ _

/-- applyFf keeps every annotation, changing at most its Ff entry. -/
theorem getAnnot_applyFf (pj aj : Nat) (pages : List Page) (pi ai : Nat)
    (b₀ : Annot) (h : getAnnot pages pi ai = some b₀) :
    ∃ b, getAnnot (applyFf pj aj pages) pi ai = some b ∧ ffPreserved b b₀ := by
  cases hpg : nth pages pi with
  | none =>
    unfold getAnnot at h
    simp only [hpg] at h
    exact Option.noConfusion h
  | some pg =>
    cases hA : pg.annots with
    | none =>
      unfold getAnnot at h
      simp only [hpg, hA] at h
      exact Option.noConfusion h
    | some l =>
      have hl : nth l ai = some b₀ := by
        unfold getAnnot at h
        simp only [hpg, hA] at h
        exact h
      by_cases hp : pi = pj
      · subst hp
        by_cases ha : ai = aj
        · subst ha
          refine ⟨setFfAnnot b₀, ?_, ffPreserved_setFf b₀⟩
          unfold getAnnot applyFf
          simp [nth_modifyNth, hpg, hA, hl]
        · refine ⟨b₀, ?_, ffPreserved_refl b₀⟩
          unfold getAnnot applyFf
          simp [nth_modifyNth, hpg, hA, hl, ha]
      · refine ⟨b₀, ?_, ffPreserved_refl b₀⟩
        unfold getAnnot applyFf
        simp [nth_modifyNth, hpg, hA, hl, hp]

/-- applyFf preserves the page count. -/
theorem applyFf_length (pj aj : Nat) (pages : List Page) :
    (applyFf pj aj pages).length = pages.length :=
  modifyNth_length _ pj pages

/-- A page position holding an annotation is within bounds. -/
theorem getAnnot_lt (pages : List Page) (pi ai : Nat) (a : Annot)
    (h : getAnnot pages pi ai = some a) : pi < pages.length := by
  unfold getAnnot at h
  cases hpg : nth pages pi with
  | none => rw [hpg] at h; simp at h
  | some pg => exact nth_some_lt pages pi pg hpg

/-- Annotations of already-traversed pages are untouched by an append. -/
theorem getAnnot_append_left (done l₂ : List Page) (pi ai : Nat)
    (h : pi < done.length) : getAnnot (done ++ l₂) pi ai = getAnnot done pi ai := by
  unfold getAnnot
  rw [nth_append_left done l₂ pi h]

/-- Annotations of the page appended at the end of the traversed list. -/
theorem getAnnot_append_length (done : List Page) (pg : Page) (ai : Nat) :
    getAnnot (done ++ [pg]) done.length ai =
      match pg.annots with
      | some l => nth l ai
      | none => none := by
  unfold getAnnot
  rw [nth_append_length done pg]

/-- Invariant of the page loop: when the loop returns, every annotation
of an already-traversed page survives with at most its Ff entry changed,
and every annotation of a page still to traverse ends at the
corresponding output position as its image under the fill body, again
with at most its Ff entry changed by the statement of line 79. -/
theorem fillLoop_ok_spec (row : Row) :
    ∀ (todo done : List Page) (last : Option (Nat × Nat)) (out : List Page),
      fillLoop row todo done last = Except.ok out →
      ((∀ pi ai b₀, getAnnot done pi ai = some b₀ →
          ∃ b, getAnnot out pi ai = some b ∧ ffPreserved b b₀) ∧
       (∀ pi ai a, getAnnot todo pi ai = some a →
          ∃ b, getAnnot out (done.length + pi) ai = some b ∧
            ffPreserved b (fillAnnot row a))) := by
  intro todo
  induction todo with
  | nil =>
    intro done last out h
    have hde : done = out := by simpa [fillLoop] using h
    subst hde
    constructor
    · intro pi ai b₀ hb
      exact ⟨b₀, hb, ffPreserved_refl b₀⟩
    · intro pi ai a ha
      unfold getAnnot at ha
      simp only [nth] at ha
      exact Option.noConfusion ha
  | cons p rest ih =>
    intro done last out h
    cases hA : p.annots with
    | none =>
      cases last with
      | none =>
        simp only [fillLoop, hA] at h
        exact Except.noConfusion h
      | some pa =>
        simp only [fillLoop, hA] at h
        refine ⟨?_, ?_⟩
        · intro pi ai b₀ hb
          have hlt := getAnnot_lt done pi ai b₀ hb
          obtain ⟨b₁, hb₁, hff₁⟩ := getAnnot_applyFf pa.1 pa.2 (done ++ [p]) pi ai b₀
            ((getAnnot_append_left done [p] pi ai hlt).trans hb)
          obtain ⟨b, hbo, hffo⟩ := (ih _ _ _ h).1 pi ai b₁ hb₁
          exact ⟨b, hbo, ffPreserved_trans hffo hff₁⟩
        · intro pi ai a ha
          cases pi with
          | zero =>
            exfalso
            unfold getAnnot at ha
            simp only [nth, hA] at ha
            exact Option.noConfusion ha
          | succ pi' =>
            have ha' : getAnnot rest pi' ai = some a := by
              unfold getAnnot at ha ⊢
              simpa only [nth] using ha
            obtain ⟨b, hbo, hffo⟩ := (ih _ _ _ h).2 pi' ai a ha'
            have hlen : (applyFf pa.1 pa.2 (done ++ [p])).length = done.length + 1 := by
              rw [applyFf_length]; simp
            rw [hlen] at hbo
            have harith : done.length + 1 + pi' = done.length + (pi' + 1) := by omega
            rw [harith] at hbo
            exact ⟨b, hbo, hffo⟩
    | some l =>
      cases l with
      | nil =>
        cases last with
        | none =>
          simp only [fillLoop, hA] at h
          exact Except.noConfusion h
        | some pa =>
          simp only [fillLoop, hA] at h
          refine ⟨?_, ?_⟩
          · intro pi ai b₀ hb
            have hlt := getAnnot_lt done pi ai b₀ hb
            obtain ⟨b₁, hb₁, hff₁⟩ := getAnnot_applyFf pa.1 pa.2 (done ++ [p]) pi ai b₀
              ((getAnnot_append_left done [p] pi ai hlt).trans hb)
            obtain ⟨b, hbo, hffo⟩ := (ih _ _ _ h).1 pi ai b₁ hb₁
            exact ⟨b, hbo, ffPreserved_trans hffo hff₁⟩
          · intro pi ai a ha
            cases pi with
            | zero =>
              exfalso
              unfold getAnnot at ha
              simp only [nth, hA] at ha
              exact Option.noConfusion ha
            | succ pi' =>
              have ha' : getAnnot rest pi' ai = some a := by
                unfold getAnnot at ha ⊢
                simpa only [nth] using ha
              obtain ⟨b, hbo, hffo⟩ := (ih _ _ _ h).2 pi' ai a ha'
              have hlen : (applyFf pa.1 pa.2 (done ++ [p])).length = done.length + 1 := by
                rw [applyFf_length]; simp
              rw [hlen] at hbo
              have harith : done.length + 1 + pi' = done.length + (pi' + 1) := by omega
              rw [harith] at hbo
              exact ⟨b, hbo, hffo⟩
      | cons a₀ rest₀ =>
        simp only [fillLoop, hA] at h
        refine ⟨?_, ?_⟩
        · intro pi ai b₀ hb
          have hlt := getAnnot_lt done pi ai b₀ hb
          obtain ⟨b₁, hb₁, hff₁⟩ :=
            getAnnot_applyFf done.length ((a₀ :: rest₀).length - 1)
              (done ++ [⟨some (List.map (fillAnnot row) (a₀ :: rest₀))⟩]) pi ai b₀
              ((getAnnot_append_left done
                [⟨some (List.map (fillAnnot row) (a₀ :: rest₀))⟩] pi ai hlt).trans hb)
          obtain ⟨b, hbo, hffo⟩ := (ih _ _ _ h).1 pi ai b₁ hb₁
          exact ⟨b, hbo, ffPreserved_trans hffo hff₁⟩
        · intro pi ai a ha
          cases pi with
          | zero =>
            have ha' : nth (a₀ :: rest₀) ai = some a := by
              unfold getAnnot at ha
              simpa only [nth, hA] using ha
            have hm : getAnnot
                (done ++ [⟨some (List.map (fillAnnot row) (a₀ :: rest₀))⟩])
                done.length ai = some (fillAnnot row a) := by
              rw [getAnnot_append_length]
              show nth (List.map (fillAnnot row) (a₀ :: rest₀)) ai
                  = some (fillAnnot row a)
              rw [nth_map, ha']
              rfl
            obtain ⟨b₁, hb₁, hff₁⟩ :=
              getAnnot_applyFf done.length ((a₀ :: rest₀).length - 1)
                (done ++ [⟨some (List.map (fillAnnot row) (a₀ :: rest₀))⟩])
                done.length ai (fillAnnot row a) hm
            obtain ⟨b, hbo, hffo⟩ := (ih _ _ _ h).1 done.length ai b₁ hb₁
            refine ⟨b, ?_, ffPreserved_trans hffo hff₁⟩
            simpa using hbo
          | succ pi' =>
            have ha' : getAnnot rest pi' ai = some a := by
              unfold getAnnot at ha ⊢
              simpa only [nth] using ha
            obtain ⟨b, hbo, hffo⟩ := (ih _ _ _ h).2 pi' ai a ha'
            have hlen : (applyFf done.length ((a₀ :: rest₀).length - 1)
                (done ++ [⟨some (List.map (fillAnnot row) (a₀ :: rest₀))⟩])).length
                  = done.length + 1 := by
              rw [applyFf_length]; simp
            rw [hlen] at hbo
            have harith : done.length + 1 + pi' = done.length + (pi' + 1) := by omega
            rw [harith] at hbo
            exact ⟨b, hbo, hffo⟩

/-- A successful fill means the page loop succeeded with the pages of
the output document. -/
theorem fill_ok_pages (t : PdfTemplate) (row : Row) (out : PdfTemplate)
    (hf : fill_pdf_form t row = Except.ok out) :
    fillLoop row t.pages [] none = Except.ok out.pages := by
  unfold fill_pdf_form at hf
  cases hl : fillLoop row t.pages [] none with
  | error e =>
    simp only [hl] at hf
    exact Except.noConfusion hf
  | ok pages =>
    simp only [hl] at hf
    cases hAF : t.acroForm with
    | none =>
      simp only [hAF] at hf
      exact Except.noConfusion hf
    | some af =>
      simp only [hAF] at hf
      cases hf
      simp [hl]

/-- Every annotation of the template ends, at the same position of the
filled document, as its image under the fill body, with at most its Ff
entry changed by the statement of line 79. -/
theorem fill_ok_annot (t : PdfTemplate) (row : Row) (out : PdfTemplate)
    (hf : fill_pdf_form t row = Except.ok out) (pi ai : Nat) (a : Annot)
    (hA : getAnnot t.pages pi ai = some a) :
    ∃ b, getAnnot out.pages pi ai = some b ∧ ffPreserved b (fillAnnot row a) := by
  have h := fill_ok_pages t row out hf
  have h₂ := (fillLoop_ok_spec row t.pages [] none out.pages h).2 pi ai a hA
  simpa using h₂

/-- An annotation whose stripped field name is not a key of the row is
left unchanged by the fill body. -/
theorem fillAnnot_not_in_row (row : Row) (a : Annot)
    (h : rowLookup row (annotKeyOf a) = none) : fillAnnot row a = a := by
  cases hT : a.get ("/T") with
  | none => simp [fillAnnot, hT]
  | some tv =>
    have h₂ : rowLookup row (pySlice1m1 tv.text) = none := by
      simpa [annotKeyOf, hT] using h
    simp [fillAnnot, hT, h₂]

/-- On a text widget whose key is in the row, the fill body sets V and
AP to the normalized string. -/
theorem fillAnnot_text_eq (row : Row) (a : Annot) (k : String) (raw : RawVal)
    (h : textWidgetKey a k) (hr : rowLookup row k = some raw) :
    fillAnnot row a =
      Annot.set (Annot.set a ("/V") (PdfVal.str (normalizeVal raw))) ("/AP")
        (PdfVal.str (normalizeVal raw)) := by
  obtain ⟨tv, hT, htr, hsub, hft, hk⟩ := h
  simp [fillAnnot, hT, htr, hsub, hk, hr, hft]

/-- A slot that equals the button token does not equal the text token. -/
theorem optEqStr_btn_not_tx (o : Option PdfVal)
    (h : optEqStr o ("/Btn") = true) : optEqStr o ("/Tx") = false := by
  cases o with
  | none => simp [optEqStr] at h
  | some v => cases v <;> simp_all [optEqStr, PdfVal.eqStr]

/-- On a button widget whose key is in the row, the fill body sets V and
AS to the name token of the normalized string. -/
theorem fillAnnot_btn_eq (row : Row) (a : Annot) (k : String) (raw : RawVal)
    (h : btnWidgetKey a k) (hr : rowLookup row k = some raw) :
    fillAnnot row a =
      Annot.set (Annot.set a ("/V") (mkName (normalizeVal raw))) ("/AS")
        (mkName (normalizeVal raw)) := by
  obtain ⟨tv, hT, htr, hsub, hft, hk⟩ := h
  have hnt : optEqStr (a.get ("/FT")) ("/Tx") = false := optEqStr_btn_not_tx _ hft
  simp [fillAnnot, hT, htr, hsub, hk, hr, hft, hnt]

/-- Slot contents of a filled text widget, shared by several results
below: V and AP of the output annotation hold the normalized string. -/
theorem fill_text_slots (t : PdfTemplate) (row : Row) (out : PdfTemplate)
    (pi ai : Nat) (a : Annot) (k : String) (raw : RawVal)
    (hf : fill_pdf_form t row = Except.ok out)
    (hA : getAnnot t.pages pi ai = some a)
    (htw : textWidgetKey a k) (hr : rowLookup row k = some raw) :
    fillSlot t row pi ai ("/V") = some (PdfVal.str (normalizeVal raw)) ∧
    fillSlot t row pi ai ("/AP") = some (PdfVal.str (normalizeVal raw)) := by
  obtain ⟨b, hb, hff⟩ := fill_ok_annot t row out hf pi ai a hA
  rw [fillAnnot_text_eq row a k raw htw hr] at hff
  have hV : b.get ("/V") = some (PdfVal.str (normalizeVal raw)) := by
    rw [hff.1 ("/V") (by decide), Annot.get_set_ne _ _ _ _ (by decide),
      Annot.get_set_self]
  have hAP : b.get ("/AP") = some (PdfVal.str (normalizeVal raw)) := by
    rw [hff.1 ("/AP") (by decide), Annot.get_set_self]
  refine ⟨?_, ?_⟩ <;> simp only [fillSlot, hf, hb]
  · exact hV
  · exact hAP

/-- Length of the processed row list. -/
theorem processRows_length (t : PdfTemplate) :
    ∀ (rows : List Row) (i : Nat), (processRows t i rows).length = rows.length := by
  intro rows
  induction rows with
  | nil => intro i; rfl
  | cons r rest ihr => intro i; simpa [processRows] using ihr (i + 1)

/-- Element of the processed row list: row j is processed with index
offset by the starting index. -/
theorem nth_processRows (t : PdfTemplate) :
    ∀ (rows : List Row) (i j : Nat),
      nth (processRows t i rows) j = Option.map (processRow t (i + j)) (nth rows j) := by
  intro rows
  induction rows with
  | nil => intro i j; rfl
  | cons r rest ihr =>
    intro i j
    cases j with
    | zero => simp [processRows, nth]
    | succ j' =>
      have h := ihr (i + 1) j'
      have harith : i + 1 + j' = i + (j' + 1) := by omega
      rw [harith] at h
      simpa [processRows, nth] using h

/-- The two counters add up to the number of rows. -/
theorem countResults_sum : ∀ (l : List RowResult),
    (countResults l).1 + (countResults l).2 = l.length := by
  intro l
  induction l with
  | nil => rfl
  | cons r rest ihr =>
    cases r with
    | success fn d =>
      simp only [countResults, List.length_cons]
      omega
    | failure i m =>
      simp only [countResults, List.length_cons]
      omega

/-- With no AcroForm, every fill raises. -/
theorem fill_noform (t : PdfTemplate) (hn : t.acroForm = none) (r : Row) :
    ∃ e, fill_pdf_form t r = Except.error e := by
  unfold fill_pdf_form
  cases hl : fillLoop r t.pages [] none with
  | error e => exact ⟨e, by simp [hl]⟩
  | ok pages => exact ⟨FillError.noFormError, by simp [hl, hn]⟩

/-- With no AcroForm, the counters show zero successes and one failure
per row. -/
theorem processRows_noform (t : PdfTemplate) (hn : t.acroForm = none) :
    ∀ (rows : List Row) (i : Nat),
      countResults (processRows t i rows) = (0, rows.length) := by
  intro rows
  induction rows with
  | nil => intro i; rfl
  | cons r rest ihr =>
    intro i
    obtain ⟨e, he⟩ := fill_noform t hn r
    simp [processRows, countResults, processRow, he, ihr (i + 1)]

/-- The document component of a processed row is the fill result of that
row alone. -/
theorem docOf_processRow (t : PdfTemplate) (i : Nat) (r : Row) :
    docOf (processRow t i r) = fillDocOpt t r := by
  cases hfr : fill_pdf_form t r <;> simp [processRow, fillDocOpt, docOf, hfr]

/-- Claim C1: per-row isolation.  The document produced for each of two
rows in a batch is the pure fill of the immutable template with that row
alone — fill_pdf_form re-parses the template bytes on line 63 for every
row — so filling R1 then R2 yields exactly the pair of documents of
filling R2 then R1, with no cross-row leakage.  The statement holds for
all rows, distinct or not. -/
theorem batch_docs_order_independent (t : PdfTemplate) (r₁ r₂ : Row) :
    List.map docOf (process_all_records t [r₁, r₂]).results =
        [fillDocOpt t r₁, fillDocOpt t r₂] ∧
    List.map docOf (process_all_records t [r₂, r₁]).results =
        [fillDocOpt t r₂, fillDocOpt t r₁] := by
  constructor <;> simp [process_all_records, processRows, docOf_processRow]

/-- Claim C2: batch forward progress and reporting.  Every row yields
exactly one outcome (no row failure aborts the batch), the two counters
add up to the number of rows, the final report always states both
counts, and a row whose fill raises is recorded as a failure carrying
its index and a human-readable cause. -/
theorem batch_progress_and_counts (t : PdfTemplate) (rows : List Row) :
    (process_all_records t rows).results.length = rows.length ∧
    (process_all_records t rows).successful_count
        + (process_all_records t rows).failed_count = rows.length ∧
    (process_all_records t rows).summary =
      ["\nProcessing complete!",
       "Successfully processed: "
           ++ toString (process_all_records t rows).successful_count ++ " records",
       "Failed to process: "
           ++ toString (process_all_records t rows).failed_count ++ " records"] ∧
    (∀ i r e, nth rows i = some r → fill_pdf_form t r = Except.error e →
       nth (process_all_records t rows).results i =
         some (RowResult.failure i
           ("Error processing record " ++ toString i ++ ": " ++ errText e))) := by
  refine ⟨?_, ?_, rfl, ?_⟩
  · simpa [process_all_records] using processRows_length t rows 0
  · have h := countResults_sum (processRows t 0 rows)
    rw [processRows_length t rows 0] at h
    simpa [process_all_records] using h
  · intro i r e hr he
    have h := nth_processRows t rows 0 i
    rw [hr] at h
    simp only [Option.map_some, Nat.zero_add] at h
    simp [process_all_records, h, processRow, he]

/-- Witness for C2 at a concrete formless template and one row: the
failure is recorded at position 0 with its index and cause. -/
theorem batch_progress_and_counts_w :
    nth (process_all_records tNoForm [[]]).results 0 =
      some (RowResult.failure 0
        ("Error processing record " ++ toString 0 ++ ": "
          ++ errText FillError.noFormError)) :=
  (batch_progress_and_counts tNoForm [[]]).2.2.2 0 [] FillError.noFormError rfl rfl

/-- Counterexample for C3: the engine applies no fixed-width padding.
Filling the zipcode text widget with the value 123 stores 123, not
00123, and the normalization of 123 is 123. -/
theorem zip_padding_cex :
    fillSlot tZip rowZip 0 0 ("/V") = some (PdfVal.str ("123")) ∧
    ¬ fillSlot tZip rowZip 0 0 ("/V") = some (PdfVal.str ("00123")) ∧
    normalizeVal (RawVal.str ("123")) = "123" ∧
    ¬ normalizeVal (RawVal.str ("123")) = "00123" := by decide

/-- Amended C3: normalization applies no fixed-width zero padding for
any field.  A present string value that is not the nan token normalizes
to itself unchanged, and a text widget (zipcode included) receives
exactly that unpadded string as its value slot. -/
theorem no_padding_normalization :
    (∀ s : String, pyLower s ≠ "nan" → normalizeVal (RawVal.str s) = s) ∧
    (∀ (t : PdfTemplate) (row : Row) (out : PdfTemplate) (pi ai : Nat)
        (a : Annot) (k s : String),
      fill_pdf_form t row = Except.ok out →
      getAnnot t.pages pi ai = some a →
      textWidgetKey a k →
      rowLookup row k = some (RawVal.str s) →
      pyLower s ≠ "nan" →
      fillSlot t row pi ai ("/V") = some (PdfVal.str s)) := by
  constructor
  · intro s hs
    simp [normalizeVal, pyStr, hs]
  · intro t row out pi ai a k s hf hA htw hr hs
    have h := (fill_text_slots t row out pi ai a k (RawVal.str s) hf hA htw hr).1
    have hn : normalizeVal (RawVal.str s) = s := by
      simp [normalizeVal, pyStr, hs]
    rw [hn] at h
    exact h

/-- Witness for the amended C3 at the zipcode fixture. -/
theorem no_padding_normalization_w :
    normalizeVal (RawVal.str ("123")) = "123" ∧
    fillSlot tZip rowZip 0 0 ("/V") = some (PdfVal.str ("123")) := by
  constructor
  · exact no_padding_normalization.1 ("123") (by decide)
  · exact no_padding_normalization.2 tZip rowZip _ 0 0 aZip ("zipcode") ("123")
      rfl rfl ⟨PdfVal.str ("(zipcode)"), rfl, by decide, by decide, by decide, by decide⟩
      rfl (by decide)

/-- Counterexample for C4: an annotation whose field name has no entry
in the row is not left entirely unchanged.  Filling with an empty row
adds Ff 1 to the only (unmatched) annotation of the page, because line
79 runs once per page on the last visited annotation. -/
theorem unmatched_annot_changed_cex :
    fillAnnotAt tOk [] 0 0 = some (Annot.set aPlain ("/Ff") (PdfVal.num 1)) ∧
    ¬ fillAnnotAt tOk [] 0 0 = some aPlain ∧
    aPlain.get ("/Ff") = none ∧
    rowLookup ([] : Row) (annotKeyOf aPlain) = none := by decide

/-- Amended C4: an annotation whose stripped field name has no entry in
the row keeps every slot unchanged — value, appearance and all others —
except that its Ff entry may additionally have been set to 1 by the
per-page statement of line 79. -/
theorem unmatched_annot_preserved_except_ff (t : PdfTemplate) (row : Row)
    (out : PdfTemplate) (pi ai : Nat) (a : Annot)
    (hf : fill_pdf_form t row = Except.ok out)
    (hA : getAnnot t.pages pi ai = some a)
    (hr : rowLookup row (annotKeyOf a) = none) :
    ∃ b, fillAnnotAt t row pi ai = some b ∧ ffPreserved b a := by
  obtain ⟨b, hb, hff⟩ := fill_ok_annot t row out hf pi ai a hA
  rw [fillAnnot_not_in_row row a hr] at hff
  refine ⟨b, ?_, hff⟩
  simp only [fillAnnotAt, hf, hb]

/-- Witness for the amended C4: the unmatched annotation of the fixture
survives the fill with at most its Ff entry changed. -/
theorem unmatched_annot_preserved_except_ff_w :
    ∃ b, fillAnnotAt tOk [] 0 0 = some b ∧ ffPreserved b aPlain :=
  unmatched_annot_preserved_except_ff tOk [] _ 0 0 aPlain rfl rfl rfl

/-- Counterexample for C5: a formless template is not detected before
the batch; both rows are attempted and recorded as failures, with zero
successes — the batch does not abort with no per-row processing. -/
theorem noform_batch_cex :
    (process_all_records tNoForm [[], []]).results.length = 2 ∧
    ¬ (process_all_records tNoForm [[], []]).results = [] ∧
    (process_all_records tNoForm [[], []]).successful_count = 0 ∧
    nth (process_all_records tNoForm [[], []]).results 1 =
      some (RowResult.failure 1
        ("Error processing record 1: NoneType object has no attribute update")) := by
  decide

/-- Amended C5: a template with no AcroForm makes fill raise for every
row — the no-form error whenever the page loop itself completes — the
error is caught per row rather than detected once up front, and the
batch reports zero successes and one failure per row. -/
theorem noform_all_rows_fail (t : PdfTemplate) (rows : List Row)
    (hn : t.acroForm = none) :
    (∀ r : Row, ∃ e, fill_pdf_form t r = Except.error e) ∧
    (process_all_records t rows).successful_count = 0 ∧
    (process_all_records t rows).failed_count = rows.length := by
  refine ⟨fill_noform t hn, ?_, ?_⟩
  · simp [process_all_records, processRows_noform t hn rows 0]
  · simp [process_all_records, processRows_noform t hn rows 0]

/-- Witness for the amended C5 at the formless fixture. -/
theorem noform_all_rows_fail_w :
    tNoForm.acroForm = none ∧
    (process_all_records tNoForm [[]]).successful_count = 0 ∧
    (process_all_records tNoForm [[]]).failed_count = 1 :=
  ⟨rfl, (noform_all_rows_fail tNoForm [[]] rfl).2.1,
    (noform_all_rows_fail tNoForm [[]] rfl).2.2⟩

/-- Counterexample for C6: the previous appearance slot is neither
cleared nor ignored.  Filling the Name text widget, whose AP slot held
OLDAP, overwrites AP with the plain value string. -/
theorem text_ap_overwritten_cex :
    fillSlot tName rowX 0 0 ("/AP") = some (PdfVal.str ("x")) ∧
    ¬ fillSlot tName rowX 0 0 ("/AP") = some (PdfVal.str ("OLDAP")) ∧
    ¬ fillSlot tName rowX 0 0 ("/AP") = some (PdfVal.str ("")) ∧
    ¬ fillSlot tName rowX 0 0 ("/AP") = none := by decide

/-- Amended C6: on a text widget whose field name is a key of the row,
fill sets the value slot to the normalized string and also overwrites
the appearance slot with that same plain string (line 76), rather than
clearing or ignoring it; appearance regeneration is still signalled at
document level through NeedAppearances. -/
theorem text_fill_sets_v_and_ap (t : PdfTemplate) (row : Row) (out : PdfTemplate)
    (pi ai : Nat) (a : Annot) (k : String) (raw : RawVal)
    (hf : fill_pdf_form t row = Except.ok out)
    (hA : getAnnot t.pages pi ai = some a)
    (htw : textWidgetKey a k) (hr : rowLookup row k = some raw) :
    fillSlot t row pi ai ("/V") = some (PdfVal.str (normalizeVal raw)) ∧
    fillSlot t row pi ai ("/AP") = some (PdfVal.str (normalizeVal raw)) :=
  fill_text_slots t row out pi ai a k raw hf hA htw hr

/-- Witness for the amended C6 at the Name fixture. -/
theorem text_fill_sets_v_and_ap_w :
    fillSlot tName rowX 0 0 ("/V") = some (PdfVal.str ("x")) ∧
    fillSlot tName rowX 0 0 ("/AP") = some (PdfVal.str ("x")) := by
  have h := text_fill_sets_v_and_ap tName rowX _ 0 0 aNameAP ("Name")
    (RawVal.str ("x")) rfl rfl
    ⟨PdfVal.str ("(Name)"), rfl, by decide, by decide, by decide, by decide⟩ rfl
  have hn : normalizeVal (RawVal.str ("x")) = "x" := by decide
  rw [hn] at h
  exact h

/-- Counterexample for C7: the ordinal fallback is 0-based, not 1-based,
and a present-but-empty naming value is used rather than falling back.
The first row without an Account_ID key is named with 0, and a row whose
Account_ID is the empty string is named with the empty string. -/
theorem naming_zero_based_cex :
    List.map nameOf (process_all_records tOk [[]]).results =
        [some ("filled_form_0.pdf")] ∧
    ¬ List.map nameOf (process_all_records tOk [[]]).results =
        [some ("filled_form_1.pdf")] ∧
    List.map nameOf (process_all_records tOk [rowAcct]).results =
        [some ("filled_form_.pdf")] := by decide

/-- Amended C7: the output of row i is named with the str() of the
Account_ID value whenever that key is present — even when the value is
empty or nan — and otherwise with the 0-based index i, embedded in the
filled_form pattern of line 99. -/
theorem naming_rule (t : PdfTemplate) (rows : List Row) (i : Nat) (r : Row)
    (doc : PdfTemplate) (hr : nth rows i = some r)
    (hf : fill_pdf_form t r = Except.ok doc) :
    nth (process_all_records t rows).results i =
      some (RowResult.success
        ("filled_form_" ++
          (match rowLookup r ("Account_ID") with
           | some v => pyStr v
           | none => toString i) ++ ".pdf") doc) := by
  have h := nth_processRows t rows 0 i
  rw [hr] at h
  simp only [Option.map_some, Nat.zero_add] at h
  simp [process_all_records, h, processRow, hf, outName]

/-- Witness for the amended C7: the present-but-empty Account_ID value
is used as the name. -/
theorem naming_rule_w :
    ∃ d, nth (process_all_records tOk [rowAcct]).results 0 =
      some (RowResult.success
        ("filled_form_" ++
          (match rowLookup rowAcct ("Account_ID") with
           | some v => pyStr v
           | none => toString 0) ++ ".pdf") d) :=
  ⟨_, naming_rule tOk [rowAcct] 0 rowAcct _ rfl rfl⟩

/-- Counterexample for C8: present values are not trimmed — a Name value
with surrounding spaces is stored verbatim, not as Bob — and the Python
None value normalizes to the string None, not to the empty string. -/
theorem no_trim_cex :
    fillSlot tName rowBob 0 0 ("/V") = some (PdfVal.str ("  Bob  ")) ∧
    ¬ fillSlot tName rowBob 0 0 ("/V") = some (PdfVal.str ("Bob")) ∧
    normalizeVal RawVal.null = "None" ∧
    ¬ normalizeVal RawVal.null = "" := by decide

/-- Amended C8: a present value is stored as its exact str() conversion
with no whitespace trimming whenever its string form is not the
case-insensitive nan token; a value whose string form is that token
normalizes to the empty string; and a present Python None becomes the
string None (only absent keys are skipped). -/
theorem text_value_untrimmed :
    (∀ (t : PdfTemplate) (row : Row) (out : PdfTemplate) (pi ai : Nat)
        (a : Annot) (k : String) (raw : RawVal),
      fill_pdf_form t row = Except.ok out →
      getAnnot t.pages pi ai = some a →
      textWidgetKey a k →
      rowLookup row k = some raw →
      pyLower (pyStr raw) ≠ "nan" →
      fillSlot t row pi ai ("/V") = some (PdfVal.str (pyStr raw))) ∧
    (∀ raw : RawVal, pyLower (pyStr raw) = "nan" → normalizeVal raw = "") ∧
    normalizeVal RawVal.null = "None" := by
  refine ⟨?_, ?_, by decide⟩
  · intro t row out pi ai a k raw hf hA htw hr hs
    have h := (fill_text_slots t row out pi ai a k raw hf hA htw hr).1
    have hn : normalizeVal raw = pyStr raw := by
      simp [normalizeVal, hs]
    rw [hn] at h
    exact h
  · intro raw hs
    simp [normalizeVal, hs]

/-- Witness for the amended C8 at the padded Name value and at NaN. -/
theorem text_value_untrimmed_w :
    fillSlot tName rowBob 0 0 ("/V")
        = some (PdfVal.str (pyStr (RawVal.str ("  Bob  ")))) ∧
    normalizeVal RawVal.nan = "" :=
  ⟨text_value_untrimmed.1 tName rowBob _ 0 0 aNameAP ("Name")
      (RawVal.str ("  Bob  ")) rfl rfl
      ⟨PdfVal.str ("(Name)"), rfl, by decide, by decide, by decide, by decide⟩
      rfl (by decide),
   text_value_untrimmed.2.1 RawVal.nan (by decide)⟩

/-- Claim C9: on a button widget whose field name is a key of the row,
fill sets both the value slot and the appearance-state slot to the name
token built from the normalized string, as pdfrw.PdfName does on line
78. -/
theorem button_fill_sets_v_and_as (t : PdfTemplate) (row : Row) (out : PdfTemplate)
    (pi ai : Nat) (a : Annot) (k : String) (raw : RawVal)
    (hf : fill_pdf_form t row = Except.ok out)
    (hA : getAnnot t.pages pi ai = some a)
    (hbw : btnWidgetKey a k) (hr : rowLookup row k = some raw) :
    fillSlot t row pi ai ("/V") = some (mkName (normalizeVal raw)) ∧
    fillSlot t row pi ai ("/AS") = some (mkName (normalizeVal raw)) := by
  obtain ⟨b, hb, hff⟩ := fill_ok_annot t row out hf pi ai a hA
  rw [fillAnnot_btn_eq row a k raw hbw hr] at hff
  have hV : b.get ("/V") = some (mkName (normalizeVal raw)) := by
    rw [hff.1 ("/V") (by decide), Annot.get_set_ne _ _ _ _ (by decide),
      Annot.get_set_self]
  have hAS : b.get ("/AS") = some (mkName (normalizeVal raw)) := by
    rw [hff.1 ("/AS") (by decide), Annot.get_set_self]
  refine ⟨?_, ?_⟩ <;> simp only [fillSlot, hf, hb]
  · exact hV
  · exact hAS

/-- Witness for C9 at the button fixture. -/
theorem button_fill_sets_v_and_as_w :
    fillSlot tBtn rowBtn 0 0 ("/V") = some (mkName ("Yes")) ∧
    fillSlot tBtn rowBtn 0 0 ("/AS") = some (mkName ("Yes")) := by
  have h := button_fill_sets_v_and_as tBtn rowBtn _ 0 0 aBtn ("Opt")
    (RawVal.str ("Yes")) rfl rfl
    ⟨PdfVal.str ("(Opt)"), rfl, by decide, by decide, by decide, by decide⟩ rfl
  have hn : normalizeVal (RawVal.str ("Yes")) = "Yes" := by decide
  rw [hn] at h
  exact h

/-- Claim C10: a template whose first page has no Annots entry — absent
or empty — makes fill raise the unbound-variable error at the per-page
statement of line 79; and when a page with annotations precedes an
annotation-less page, that statement instead mutates the last annotation
visited on the earlier page, as the loop-state equation shows: stepping
the loop over the annotation-less page sets Ff 1 on the annotation at
position (0, 0) of the already-traversed page. -/
theorem first_page_no_annots_name_error :
    fill_pdf_form tPgNone [] = Except.error FillError.nameError ∧
    fill_pdf_form tPgEmpty [] = Except.error FillError.nameError ∧
    fillLoop [] [⟨none⟩] [⟨some [aPlain]⟩] (some (0, 0)) =
      Except.ok [⟨some [Annot.set aPlain ("/Ff") (PdfVal.num 1)]⟩, ⟨none⟩] :=
  ⟨rfl, rfl, rfl⟩

end PdfFill
